import Mathlib

/-
  Verification model of the riqueza-em-dia personal-finance backend.

  The model is a shallow embedding of the Transaction Ledger and Reporting
  subsystems:

  - src/transactions/services/transactions.service.ts
      (TransactionsService.create / update / remove / findAll)
  - src/transactions/transaction.repository.ts
      (TransactionRepository.findAll, month and year date filtering)
  - src/transactions/transaction.schema.ts
      (transactionFilterSchema: the flexible variant that accepts a bare
       month 01-12 plus a separate year parameter, with a superRefine step
       and a transform that merges the two and drops the year)
  - src/common/dtos/pagination.dto.ts (PaginationQuerySchema)
  - the reports service (getSummary, getByCategory, getMonthlyData)
  - src/common/cache/cache.service.ts and the CacheInterceptor wiring on the
    report endpoints, modelled as a report cache carried in the state.

  Modelling conventions: ids are Nat (uuids in the source), money is Int
  (integer minor units, the schema enforces integer cents), calendar dates are
  a linear month index (year * 12 + month - 1) plus a day of month, so that a
  first-instant-to-last-instant month range in the source corresponds to
  equality of month indexes here.  Database rows live in lists; Prisma
  increment updates become pointwise list updates.  Fallible operations
  return Except.
-/

inductive TxType
  | income
  | expense
deriving DecidableEq, Repr

inductive TxStatus
  | pending
  | completed
  | canceled
deriving DecidableEq, Repr

/-- Calendar date at the granularity the ledger needs: a linear month index
(year * 12 + month - 1) and a day of month. -/
structure LedgerDate where
  ym : Int
  day : Nat
deriving DecidableEq, Repr

structure Account where
  id : Nat
  userId : Nat
  name : String
  balance : Int
  isArchived : Bool
deriving DecidableEq, Repr

structure Category where
  id : Nat
  name : String
  color : String
deriving DecidableEq, Repr

structure Transaction where
  id : Nat
  userId : Nat
  accountId : Nat
  categoryId : Option Nat
  amount : Int
  description : String
  date : LedgerDate
  type : TxType
  status : TxStatus
deriving DecidableEq, Repr

/-- Totals computed by the reports service getSummary endpoint. -/
structure SummaryTotals where
  totalBalance : Int
  monthlyIncome : Int
  monthlyExpense : Int
deriving DecidableEq, Repr

/-- Database plus report cache.  The report endpoints sit behind a
CacheInterceptor; reportCache models its store, keyed by user and month. -/
structure DbState where
  accounts : List Account
  categories : List Category
  transactions : List Transaction
  nextTxId : Nat
  reportCache : List ((Nat × Int) × SummaryTotals)
deriving DecidableEq, Repr

/-- Error categories surfaced by the service layer: NotFoundException,
ForbiddenException, BadRequestException. -/
inductive ApiError
  | notFound
  | forbidden
  | badRequest
deriving DecidableEq, Repr

/-- Signed balance effect of a transaction: income adds, expense subtracts
(balanceChange in TransactionsService.create). -/
def signedAmount (ty : TxType) (amount : Int) : Int :=
  match ty with
  | .income => amount
  | .expense => -amount

/-- Prisma account.update with a balance increment: bump the balance of the
account carrying the given id. -/
def incrementBalance (accounts : List Account) (accId : Nat) (delta : Int) :
    List Account :=
  accounts.map (fun a => if a.id = accId then { a with balance := a.balance + delta } else a)

/-- Balance of the account with the given id, if present. -/
def lookupBalance (accId : Nat) (s : DbState) : Option Int :=
  (s.accounts.find? (fun a => decide (a.id = accId))).map (fun a => a.balance)

/-- The ledger invariant from the spec: every account balance equals the sum
of signed amounts of the transactions currently referencing it. -/
def balanceInvariant (s : DbState) : Prop :=
  ∀ a ∈ s.accounts,
    a.balance =
      ((s.transactions.filter (fun t => decide (t.accountId = a.id))).map
        (fun t => signedAmount t.type t.amount)).sum

instance (s : DbState) : Decidable (balanceInvariant s) :=
  List.decidableBAll _ s.accounts

/-- Validated body of POST /transactions (createTransactionSchema): amount is
a positive integer of cents, category is optional, status defaults pending. -/
structure CreateTransactionDto where
  amount : Int
  description : String
  date : LedgerDate
  type : TxType
  status : TxStatus
  account : Nat
  category : Option Nat
deriving DecidableEq, Repr

/-- Validated body of PUT /transactions/:id (updateTransactionSchema, all
fields optional, partial update semantics). -/
structure UpdateTransactionDto where
  amount : Option Int
  description : Option String
  date : Option LedgerDate
  type : Option TxType
  status : Option TxStatus
  account : Option Nat
  category : Option Nat
deriving DecidableEq, Repr

/-- The updateData object built in TransactionsService.update: spread of the
fields present in the dto over the existing row. -/
def applyUpdateData (t : Transaction) (dto : UpdateTransactionDto) : Transaction :=
  { t with
    amount := dto.amount.getD t.amount
    description := dto.description.getD t.description
    date := dto.date.getD t.date
    type := dto.type.getD t.type
    status := dto.status.getD t.status
    accountId := dto.account.getD t.accountId
    categoryId := match dto.category with
      | some c => some c
      | none => t.categoryId }

namespace TransactionsService

/-- TransactionsService.create.  Checks the account belongs to the user
(findFirst on id and userId, else ForbiddenException), then looks the
category up by id unconditionally - findUnique on the category field of the
dto - and fails with NotFoundException when no row comes back (which is also
what happens when no category id was supplied at all); then, atomically,
inserts the row and increments the account balance by the signed amount. -/
def create (userId : Nat) (dto : CreateTransactionDto) (s : DbState) :
    Except ApiError (Transaction × DbState) :=
  match s.accounts.find? (fun a => decide (a.id = dto.account ∧ a.userId = userId)) with
  | none => .error .forbidden
  | some _ =>
    match dto.category.bind (fun cid => s.categories.find? (fun c => decide (c.id = cid))) with
    | none => .error .notFound
    | some _ =>
      let tx : Transaction :=
        { id := s.nextTxId
          userId := userId
          accountId := dto.account
          categoryId := dto.category
          amount := dto.amount
          description := dto.description
          date := dto.date
          type := dto.type
          status := dto.status }
      let balanceChange := signedAmount dto.type dto.amount
      .ok (tx,
        { s with
          transactions := s.transactions ++ [tx]
          accounts := incrementBalance s.accounts dto.account balanceChange
          nextTxId := s.nextTxId + 1 })

/-- TransactionsService.findOne via TransactionRepository.findOne: findFirst
on id and userId. -/
def findOne (id userId : Nat) (s : DbState) : Option Transaction :=
  s.transactions.find? (fun t => decide (t.id = id ∧ t.userId = userId))

/-- TransactionsService.update.  Loads the existing row (else NotFound);
validates the new account when the account is changing and the category when
it is changing; computes the old and new account adjustments only when the
dto carries an amount or a type (otherwise both stay 0); applies them to the
old and new account when the account changes, or their sum to the single
account otherwise; finally writes the merged row.  All inside one atomic
unit. -/
def update (id userId : Nat) (dto : UpdateTransactionDto) (s : DbState) :
    Except ApiError (Transaction × DbState) :=
  match findOne id userId s with
  | none => .error .notFound
  | some existing =>
    let accountChanging : Bool :=
      match dto.account with
      | some a => decide (a ≠ existing.accountId)
      | none => false
    let newAccountOk : Bool :=
      if accountChanging then
        (s.accounts.find? (fun a => decide (some a.id = dto.account ∧ a.userId = userId))).isSome
      else true
    if !newAccountOk then .error .forbidden
    else
      let categoryChanging : Bool :=
        match dto.category with
        | some c => decide (some c ≠ existing.categoryId)
        | none => false
      let categoryOk : Bool :=
        if categoryChanging then
          (s.categories.find? (fun c => decide (some c.id = dto.category))).isSome
        else true
      if !categoryOk then .error .notFound
      else
        let adjustments : Int × Int :=
          if dto.amount.isSome || dto.type.isSome then
            let oldAmount := existing.amount
            let oldType := existing.type
            let newAmount := dto.amount.getD oldAmount
            let newType := dto.type.getD oldType
            (- signedAmount oldType oldAmount, signedAmount newType newAmount)
          else (0, 0)
        let oldAccountAdjustment := adjustments.1
        let newAccountAdjustment := adjustments.2
        let accounts1 :=
          if accountChanging then
            let afterOld := incrementBalance s.accounts existing.accountId oldAccountAdjustment
            match dto.account with
            | some newAcc => incrementBalance afterOld newAcc newAccountAdjustment
            | none => afterOld
          else if oldAccountAdjustment != 0 || newAccountAdjustment != 0 then
            incrementBalance s.accounts existing.accountId
              (oldAccountAdjustment + newAccountAdjustment)
          else s.accounts
        let updated := applyUpdateData existing dto
        .ok (updated,
          { s with
            accounts := accounts1
            transactions := s.transactions.map
              (fun t => if t.id = id ∧ t.userId = userId then updated else t) })

/-- TransactionsService.remove.  Loads the row (else NotFound), deletes it,
and reverses its balance effect on the owning account, atomically; returns
the pre-delete row. -/
def remove (id userId : Nat) (s : DbState) :
    Except ApiError (Transaction × DbState) :=
  match findOne id userId s with
  | none => .error .notFound
  | some transaction =>
    let balanceAdjustment : Int :=
      match transaction.type with
      | .income => -transaction.amount
      | .expense => transaction.amount
    .ok (transaction,
      { s with
        transactions := s.transactions.filter
          (fun t => !decide (t.id = id ∧ t.userId = userId))
        accounts := incrementBalance s.accounts transaction.accountId balanceAdjustment })

end TransactionsService

/-- Projection used to compare two service outcomes by their effect on the
account table alone. -/
def resultAccounts (r : Except ApiError (Transaction × DbState)) :
    Option (List Account) :=
  r.toOption.map (fun p => p.2.accounts)

/-- Rewrite the status of the transaction carrying the given id, leaving
every other column alone. -/
def setTxStatus (id : Nat) (st : TxStatus) (s : DbState) : DbState :=
  { s with transactions :=
      s.transactions.map (fun t => if t.id = id then { t with status := st } else t) }

/-- Create body rebuilt from an existing row, as in the delete-then-recreate
round trip: identical amount, type, account, status (and category, so the
category lookup in create can succeed). -/
def recreateDto (t : Transaction) : CreateTransactionDto :=
  { amount := t.amount
    description := t.description
    date := t.date
    type := t.type
    status := t.status
    account := t.accountId
    category := t.categoryId }

/-- Predicate of the reports where clause: completed transactions of one user
and one type dated in one month (the source materializes the first and last
instants of the month and filters the date between them; at month granularity
that is equality of the month index). -/
def completedOfTypeInMonth (userId : Nat) (ty : TxType) (m : Int) (t : Transaction) : Bool :=
  decide (t.userId = userId) && decide (t.type = ty) &&
    decide (t.date.ym = m) && decide (t.status = .completed)

/-- Sum of amounts of completed transactions of one type in one month: the
per-type groupBy sum the reports service issues for summary, income versus
expense, and each month of the time series. -/
def monthTypeTotal (userId : Nat) (ty : TxType) (m : Int) (txs : List Transaction) : Int :=
  ((txs.filter (completedOfTypeInMonth userId ty m)).map (fun t => t.amount)).sum

/-- ReportsService.getSummary, totals part: total balance over the non-archived
accounts of the user plus completed income and expense totals of the target
month. -/
def getSummaryTotals (userId : Nat) (m : Int) (s : DbState) : SummaryTotals :=
  let owned := s.accounts.filter (fun a => decide (a.userId = userId ∧ a.isArchived = false))
  { totalBalance := (owned.map (fun a => a.balance)).sum
    monthlyIncome := monthTypeTotal userId .income m s.transactions
    monthlyExpense := monthTypeTotal userId .expense m s.transactions }

/-- The CacheInterceptor on GET /reports/summary: serve the cached entry if
one exists, otherwise compute and store it.  No other code path touches
reportCache - in particular none of the ledger writes do. -/
def getSummaryCached (userId : Nat) (m : Int) (s : DbState) :
    SummaryTotals × DbState :=
  match s.reportCache.find? (fun e => decide (e.1 = (userId, m))) with
  | some e => (e.2, s)
  | none =>
    let v := getSummaryTotals userId m s
    (v, { s with reportCache := s.reportCache ++ [((userId, m), v)] })

/- Transaction Query Engine: filter validation and findAll. -/

inductive SortField
  | date
  | amount
  | description
deriving DecidableEq, Repr

inductive SortOrder
  | asc
  | desc
deriving DecidableEq, Repr

/-- Output of PaginationQuerySchema: page at least 1 (default 1), limit
between 1 and 100 (default 10).  The sortBy and sortOrder members exist in
the schema but the repository only ever reaches them as dead fallbacks, the
filter sort and order being always present after validation. -/
structure PaginationQueryParams where
  page : Int
  limit : Int
deriving DecidableEq, Repr

/-- PaginationQuerySchema of pagination.dto.ts: coerce to number, page min 1
default 1, limit min 1 max 100 default 10; out-of-range values are a
validation error. -/
def validatePagination (page limit : Option Int) :
    Except ApiError PaginationQueryParams :=
  let p := page.getD 1
  let l := limit.getD 10
  if p < 1 then .error .badRequest
  else if l < 1 then .error .badRequest
  else if 100 < l then .error .badRequest
  else .ok { page := p, limit := l }

/-- Raw query string of GET /transactions before transactionFilterSchema
runs: month and year arrive as strings, the rest is kept already typed. -/
structure RawTransactionFilter where
  month : Option String
  year : Option String
  type : Option TxType
  category : Option Nat
  account : Option Nat
  search : Option String
  sort : Option SortField
  order : Option SortOrder
deriving DecidableEq, Repr

/-- Validated filter after transactionFilterSchema: the transform step has
already merged a numeric month with its year and then deleted the year key,
so the year member is none in every value the schema can produce. -/
structure TransactionFilter where
  month : Option String
  year : Option String
  type : Option TxType
  category : Option Nat
  account : Option Nat
  search : Option String
  sort : SortField
  order : SortOrder
deriving DecidableEq, Repr

/-- Regex of the schema month union, first arm: four digits, a dash, two
digits (YYYY-MM). -/
def isMonthYYYYMM (s : String) : Bool :=
  match s.toList with
  | [a, b, c, d, sep, e, f] =>
    a.isDigit && b.isDigit && c.isDigit && d.isDigit &&
      decide (sep = '-') && e.isDigit && f.isDigit
  | _ => false

/-- Regex of the schema month union, second arm: a bare month 01 to 12. -/
def isMonthNumeric (s : String) : Bool :=
  match s.toList with
  | [c0, c1] =>
    (decide (c0 = '0') && c1.isDigit && !decide (c1 = '0')) ||
      (decide (c0 = '1') && (decide (c1 = '0') || decide (c1 = '1') || decide (c1 = '2')))
  | _ => false

/-- Regex of the schema year parameter: four digits (YYYY). -/
def isYearYYYY (s : String) : Bool :=
  match s.toList with
  | [a, b, c, d] => a.isDigit && b.isDigit && c.isDigit && d.isDigit
  | _ => false

/-- The transform the schema applies to optional string parameters: an empty
string becomes undefined. -/
def emptyToNone (v : Option String) : Option String :=
  match v with
  | some s => if s = "" then none else some s
  | none => none

/-- transactionFilterSchema of transaction.schema.ts: the month union check,
the year format check, the superRefine step (a bare numeric month without a
year is a validation error), and the final transform (merge a numeric month
with the year into YYYY-MM, then delete the year key). -/
def validateTransactionFilter (raw : RawTransactionFilter) :
    Except ApiError TransactionFilter :=
  let monthOk : Bool :=
    match raw.month with
    | none => true
    | some s => isMonthYYYYMM s || isMonthNumeric s || decide (s = "")
  if !monthOk then .error .badRequest
  else
    let yearOk : Bool :=
      match raw.year with
      | none => true
      | some s => isYearYYYY s || decide (s = "")
    if !yearOk then .error .badRequest
    else
      let month0 := emptyToNone raw.month
      let year0 := emptyToNone raw.year
      let needsYear : Bool :=
        match month0 with
        | some mo => isMonthNumeric mo && year0.isNone
        | none => false
      if needsYear then .error .badRequest
      else
        let month1 : Option String :=
          match month0, year0 with
          | some mo, some y => if isMonthNumeric mo then some (y ++ "-" ++ mo) else some mo
          | some mo, none => some mo
          | none, _ => none
        .ok { month := month1
              year := none
              type := raw.type
              category := raw.category
              account := raw.account
              search := emptyToNone raw.search
              sort := raw.sort.getD .date
              order := raw.order.getD .desc }

/-- parseInt on a string the regex has already confirmed to be all digits. -/
def parseNat (s : String) : Nat :=
  s.toNat?.getD 0

/-- Linear month index of a calendar year and 1-based month. -/
def monthIndex (year month : Nat) : Int :=
  (year : Int) * 12 + (month : Int) - 1

/-- Date restriction TransactionRepository.findAll derives from the month and
year members of the filter: with both present and well-formed (a bare numeric
month and a four-digit year) the range covers that one month; with only a
year the range covers the whole year; a month alone, a missing year, or a
mis-formatted value yields no restriction at all (the code merely logs a
warning and moves on). -/
def dateRange (filter : TransactionFilter) : Option (Int × Int) :=
  match filter.month, filter.year with
  | some mo, some y =>
    if isYearYYYY y && isMonthNumeric mo then
      let idx := monthIndex (parseNat y) (parseNat mo)
      some (idx, idx)
    else none
  | none, some y =>
    if isYearYYYY y then some (monthIndex (parseNat y) 1, monthIndex (parseNat y) 12)
    else none
  | _, none => none

/-- Whether the pattern occurs at the head of the character list. -/
def listStartsWith (l pat : List Char) : Bool :=
  match l, pat with
  | _, [] => true
  | [], _ :: _ => false
  | c :: cs, p :: ps => decide (c = p) && listStartsWith cs ps

/-- Whether the pattern occurs anywhere inside the character list. -/
def listContainsSeq (l pat : List Char) : Bool :=
  match l with
  | [] => pat.isEmpty
  | c :: cs => listStartsWith (c :: cs) pat || listContainsSeq cs pat

/-- Case-insensitive substring match, the mode insensitive contains Prisma
query the search filter issues over the description column. -/
def containsInsensitive (hay needle : String) : Bool :=
  listContainsSeq hay.toLower.toList needle.toLower.toList

/-- The Prisma where clause TransactionRepository.findAll builds: owner, then
one conjunct per filter parameter that is present. -/
def txMatchesFilter (userId : Nat) (filter : TransactionFilter) (t : Transaction) : Bool :=
  decide (t.userId = userId) &&
    (match filter.type with
     | some ty => decide (t.type = ty)
     | none => true) &&
    (match filter.account with
     | some a => decide (t.accountId = a)
     | none => true) &&
    (match filter.category with
     | some c => decide (t.categoryId = some c)
     | none => true) &&
    (match dateRange filter with
     | some r => decide (r.1 ≤ t.date.ym ∧ t.date.ym ≤ r.2)
     | none => true) &&
    (match filter.search with
     | some q => containsInsensitive t.description q
     | none => true)

/-- Date order used by the orderBy clause. -/
def dateLe (d1 d2 : LedgerDate) : Bool :=
  decide (d1.ym < d2.ym) || (decide (d1.ym = d2.ym) && decide (d1.day ≤ d2.day))

/-- The orderBy clause: sort field and direction from the validated filter. -/
def rowLe (f : SortField) (o : SortOrder) (a b : Transaction) : Bool :=
  match f, o with
  | .date, .asc => dateLe a.date b.date
  | .date, .desc => dateLe b.date a.date
  | .amount, .asc => decide (a.amount ≤ b.amount)
  | .amount, .desc => decide (b.amount ≤ a.amount)
  | .description, .asc => (compare a.description b.description).isLE
  | .description, .desc => (compare b.description a.description).isLE

/-- The orderBy clause as a relation, for the sort below. -/
def rowOrder (f : SortField) (o : SortOrder) (a b : Transaction) : Prop :=
  rowLe f o a b = true

instance (f : SortField) (o : SortOrder) : DecidableRel (rowOrder f o) :=
  fun a b => inferInstanceAs (Decidable (rowLe f o a b = true))

namespace TransactionRepository

/-- TransactionRepository.findAll: skip = (page - 1) * limit, take = limit
over the filtered and ordered rows, next to a count over the same where
clause.  The ordering the database performs is modelled as a comparison
sort under the orderBy relation. -/
def findAll (userId : Nat) (filter : TransactionFilter)
    (pagination : PaginationQueryParams) (s : DbState) :
    List Transaction × Nat :=
  let skip := (pagination.page - 1) * pagination.limit
  let matching := s.transactions.filter (txMatchesFilter userId filter)
  let rows := List.insertionSort (rowOrder filter.sort filter.order) matching
  ((rows.drop skip.toNat).take pagination.limit.toNat, matching.length)

end TransactionRepository

/-- Pagination block of the findAll response built by the service. -/
structure PaginationMeta where
  total : Nat
  pages : Nat
  currentPage : Int
  limit : Int
deriving DecidableEq, Repr

/-- Response shape of TransactionsService.findAll. -/
structure FindAllResult where
  transactions : List Transaction
  pagination : PaginationMeta
deriving DecidableEq, Repr

namespace TransactionsService

/-- TransactionsService.findAll: delegates to the repository and wraps the
rows with total, pages = ceil of total over limit (written here as the usual
integer formula, limit being a positive integer after validation), the
current page and the limit. -/
def findAll (userId : Nat) (filter : TransactionFilter)
    (pagination : PaginationQueryParams) (s : DbState) : FindAllResult :=
  let r := TransactionRepository.findAll userId filter pagination s
  { transactions := r.1
    pagination :=
      { total := r.2
        pages := (r.2 + pagination.limit.toNat - 1) / pagination.limit.toNat
        currentPage := pagination.page
        limit := pagination.limit } }

end TransactionsService

/- Report Aggregator: by-category and monthly views. -/

/-- Chart entry of the by-category and income-versus-expense views. -/
structure ChartItem where
  name : String
  value : Int
  color : String
deriving DecidableEq, Repr

/-- The rows ReportsService.getByCategory aggregates: completed transactions
of the user, of the requested type, dated in the requested month. -/
def byCategoryMatching (userId : Nat) (ty : TxType) (m : Int) (s : DbState) :
    List Transaction :=
  s.transactions.filter (completedOfTypeInMonth userId ty m)

/-- Keys of the Prisma groupBy on categoryId: one key per distinct category
reference among the matching rows, the null reference included. -/
def byCategoryKeys (userId : Nat) (ty : TxType) (m : Int) (s : DbState) :
    List (Option Nat) :=
  ((byCategoryMatching userId ty m s).map (fun t => t.categoryId)).dedup

/-- One chart entry per group: the per-group amount sum, with name and color
resolved through the findMany over the non-null keys, defaulting to
Uncategorized and the neutral color when no category row matches. -/
def byCategoryItem (userId : Nat) (ty : TxType) (m : Int) (s : DbState)
    (k : Option Nat) : ChartItem :=
  let matching := byCategoryMatching userId ty m s
  let categoryIds := (byCategoryKeys userId ty m s).filterMap id
  let categories := s.categories.filter (fun c => categoryIds.contains c.id)
  let category := categories.find? (fun c => decide (some c.id = k))
  { name := (category.map (fun c => c.name)).getD "Uncategorized"
    value := ((matching.filter (fun t => decide (t.categoryId = k))).map
      (fun t => t.amount)).sum
    color := (category.map (fun c => c.color)).getD "#6c757d" }

/-- The comparator of the final sort: descending by summed value (the source
comparator b.value - a.value puts the larger value first). -/
def chartDescByValue (a b : ChartItem) : Bool :=
  decide (b.value ≤ a.value)

/-- The descending-by-value order as a relation, for the sort below. -/
def chartOrder (a b : ChartItem) : Prop :=
  chartDescByValue a b = true

instance : DecidableRel chartOrder :=
  fun a b => inferInstanceAs (Decidable (chartDescByValue a b = true))

/-- ReportsService.getByCategory: group the matching rows by category, build
one chart entry per group, sort descending by value (the engine sort is
modelled as a comparison sort under the descending order). -/
def getByCategory (userId : Nat) (ty : TxType) (m : Int) (s : DbState) :
    List ChartItem :=
  List.insertionSort chartOrder
    ((byCategoryKeys userId ty m s).map (byCategoryItem userId ty m s))

/-- Entry of the monthly time series.  The source formats the month as a
locale string for display; the model keeps the month index. -/
structure MonthlyDataItem where
  month : Int
  income : Int
  expense : Int
  balance : Int
deriving DecidableEq, Repr

/-- Per-month slice of ReportsService.getMonthlyData: completed income and
expense totals of the month plus balance = income - expense. -/
def monthEntry (userId : Nat) (m : Int) (s : DbState) : MonthlyDataItem :=
  let income := monthTypeTotal userId .income m s.transactions
  let expense := monthTypeTotal userId .expense m s.transactions
  { month := m, income := income, expense := expense, balance := income - expense }

/-- ReportsService.getMonthlyData: builds the month list newest first with a
loop hardcoded to six iterations - the window argument of the signature is
accepted but never read - computes each month, and reverses the result into
chronological order. -/
def getMonthlyData (userId : Nat) (endMonth : Int) (windowSize : Option Nat)
    (s : DbState) : List MonthlyDataItem :=
  let months := (List.range 6).map (fun i => endMonth - (i : Int))
  (months.map (fun mo => monthEntry userId mo s)).reverse

/- Concrete scenario: user 1 owns accounts 1 and 2, both at balance 0, and
category 10 exists.  One income transaction of 7000 is created on account 1
and then moved to account 2 by an update whose body carries only the account
field (partial update: amount and type are left unchanged by omission). -/

def demoAccount1 : Account :=
  { id := 1, userId := 1, name := "Conta A", balance := 0, isArchived := false }

def demoAccount2 : Account :=
  { id := 2, userId := 1, name := "Conta B", balance := 0, isArchived := false }

def demoCategory : Category :=
  { id := 10, name := "Salario", color := "#28a745" }

def demoState0 : DbState :=
  { accounts := [demoAccount1, demoAccount2]
    categories := [demoCategory]
    transactions := []
    nextTxId := 100
    reportCache := [] }

def demoCreateDto : CreateTransactionDto :=
  { amount := 7000
    description := "Pagamento"
    date := { ym := 600, day := 10 }
    type := .income
    status := .completed
    account := 1
    category := some 10 }

def emptyUpdateDto : UpdateTransactionDto :=
  { amount := none, description := none, date := none, type := none
    status := none, account := none, category := none }

/-- Move-only update body: just the account field, everything else absent. -/
def demoMoveDto : UpdateTransactionDto :=
  { emptyUpdateDto with account := some 2 }

/-- Create the 7000 income transaction on account 1, then move it to account
2 with a move-only update. -/
def demoFinal : Except ApiError (Transaction × DbState) :=
  (TransactionsService.create 1 demoCreateDto demoState0).bind
    (fun p => TransactionsService.update p.1.id 1 demoMoveDto p.2)

/-- Create body identical to demoCreateDto but with no category given. -/
def demoCreateDtoNoCategory : CreateTransactionDto :=
  { demoCreateDto with category := none }

/- Concrete scenario for the stale report cache: user 1 has one account at
balance 0 and a cached summary for month 600 showing all-zero totals. -/

def c7State0 : DbState :=
  { accounts := [demoAccount1]
    categories := [demoCategory]
    transactions := []
    nextTxId := 100
    reportCache := [((1, 600), { totalBalance := 0, monthlyIncome := 0, monthlyExpense := 0 })] }

def c7CreateDto : CreateTransactionDto :=
  { amount := 5000
    description := "Pagamento"
    date := { ym := 600, day := 15 }
    type := .income
    status := .completed
    account := 1
    category := some 10 }

/- Concrete scenario for the delete-then-recreate round trip: one completed
income transaction of 5000 sits on account 1, whose balance is 5000. -/

def c8Tx : Transaction :=
  { id := 100
    userId := 1
    accountId := 1
    categoryId := some 10
    amount := 5000
    description := "Pagamento"
    date := { ym := 600, day := 1 }
    type := .income
    status := .completed }

def c8State0 : DbState :=
  { accounts := [{ demoAccount1 with balance := 5000 }]
    categories := [demoCategory]
    transactions := [c8Tx]
    nextTxId := 101
    reportCache := [] }

def c8Res1 : Except ApiError (Transaction × DbState) :=
  TransactionsService.remove 100 1 c8State0

def c8State1 : DbState :=
  match c8Res1 with
  | .ok p => p.2
  | .error _ => c8State0

def c8Res2 : Except ApiError (Transaction × DbState) :=
  TransactionsService.create 1 (recreateDto c8Tx) c8State1

def c8Tx2 : Transaction :=
  match c8Res2 with
  | .ok p => p.1
  | .error _ => c8Tx

def c8State2 : DbState :=
  match c8Res2 with
  | .ok p => p.2
  | .error _ => c8State1

/-- A pending copy of the scenario transaction, for the status conjunct of
the summary aggregation. -/
def c10PendingTx : Transaction :=
  { c8Tx with status := .pending }

/- Concrete inputs for the filter validation claims. -/

def c4RawYearOnly : RawTransactionFilter :=
  { month := none, year := some "2024", type := none, category := none
    account := none, search := none, sort := none, order := none }

def c4RawMonthOnly : RawTransactionFilter :=
  { c4RawYearOnly with month := some "05", year := none }

/-- The filter the schema produces from a year-only query: the year is gone
and no date restriction survives. -/
def c4FilterYearOnly : TransactionFilter :=
  { month := none, year := none, type := none, category := none
    account := none, search := none, sort := .date, order := .desc }

def c9Pag : PaginationQueryParams :=
  { page := 1, limit := 10 }

/- Concrete scenario for the by-category report: in month 5 user 1 has a
completed expense of 4000 in category 10 and a completed uncategorized
expense of 1000. -/

def c5Tx1 : Transaction :=
  { id := 1
    userId := 1
    accountId := 1
    categoryId := some 10
    amount := 4000
    description := "Aluguel"
    date := { ym := 5, day := 3 }
    type := .expense
    status := .completed }

def c5Tx2 : Transaction :=
  { id := 2
    userId := 1
    accountId := 1
    categoryId := none
    amount := 1000
    description := "Mercado"
    date := { ym := 5, day := 7 }
    type := .expense
    status := .completed }

def c5State : DbState :=
  { accounts := [demoAccount1]
    categories := [demoCategory]
    transactions := [c5Tx1, c5Tx2]
    nextTxId := 3
    reportCache := [] }

/- Theorems. -/

/-- C1: the spec invariant - every account balance equals the sum of signed
amounts of the transactions currently referencing it - is violated by a
reachable state.  Starting from two zero-balance accounts, creating an income
transaction of 7000 on account 1 and then updating it with only a new account
(account 2) succeeds, leaves the row referencing account 2, yet the balances
stay at 7000 and 0: the update computes its balance adjustments only when the
dto carries an amount or a type, so a move-only update transfers nothing. -/
theorem c01_balance_invariant_violated_by_account_move :
    demoFinal.toOption.map (fun p => decide (balanceInvariant p.2)) = some false ∧
    demoFinal.toOption.map
        (fun p => p.2.accounts.map (fun a => (a.id, a.balance))) =
      some [(1, 7000), (2, 0)] ∧
    demoFinal.toOption.map (fun p => p.1.accountId) = some 2 := by
  decide

/-- C2: moving a transaction to another account while leaving amount and type
unchanged (a partial update carrying only the account) does not transfer its
effect: after moving the 7000 income transaction from account 1 to account 2,
account 1 still holds 7000 and account 2 holds 0, not 0 and 7000 as the spec
scenario demands. -/
theorem c02_account_move_transfers_nothing :
    demoFinal.toOption.map (fun p => (lookupBalance 1 p.2, lookupBalance 2 p.2)) =
      some (some 7000, some 0) ∧
    ¬ demoFinal.toOption.map (fun p => (lookupBalance 1 p.2, lookupBalance 2 p.2)) =
        some (some 0, some 7000) := by
  decide

/-- C3: a create whose body carries no category id fails with a not-found
error instead of creating the transaction: the service looks the category up
unconditionally (the schema, the database column and the update path all
treat the category as optional, but create does not guard the lookup). -/
theorem c03_create_without_category_fails :
    TransactionsService.create 1 demoCreateDtoNoCategory demoState0 =
      .error .notFound := by
  rfl

/-- C7: a successful createTransaction leaves the report cache untouched
(none of create, update, remove performs any cache invalidation), so a
summary read issued after the write is served the value cached before it:
the stale all-zero summary instead of the recomputed one with the 5000
income. -/
theorem c07_write_serves_stale_cached_report :
    (TransactionsService.create 1 c7CreateDto c7State0).toOption.map
        (fun p => p.2.reportCache) = some c7State0.reportCache ∧
    (TransactionsService.create 1 c7CreateDto c7State0).toOption.map
        (fun p => (getSummaryCached 1 600 p.2).1) =
      some { totalBalance := 0, monthlyIncome := 0, monthlyExpense := 0 } ∧
    (TransactionsService.create 1 c7CreateDto c7State0).toOption.map
        (fun p => getSummaryTotals 1 600 p.2) =
      some { totalBalance := 5000, monthlyIncome := 5000, monthlyExpense := 0 } ∧
    ({ totalBalance := 0, monthlyIncome := 0, monthlyExpense := 0 } : SummaryTotals) ≠
      { totalBalance := 5000, monthlyIncome := 5000, monthlyExpense := 0 } := by
  decide

/-- Helper: finding an account by id after an increment on that same id
returns the found account with its balance bumped. -/
theorem find?_incrementBalance_self (accounts : List Account) (accId : Nat) (d : Int) :
    (incrementBalance accounts accId d).find? (fun a => decide (a.id = accId)) =
      (accounts.find? (fun a => decide (a.id = accId))).map
        (fun a => { a with balance := a.balance + d }) := by
  induction accounts with
  | nil => rfl
  | cons a l ih =>
    simp only [incrementBalance, List.map_cons]
    by_cases h : a.id = accId
    · simp [List.find?, h]
    · simpa [List.find?, h, incrementBalance] using ih

/-- C10: the balance delta of create and remove depends only on type and
amount, never on status.  First conjunct: two creates differing only in the
status of the body leave identical account tables (or fail identically).
Second conjunct: removing a transaction after rewriting its status leaves the
same account table as removing it untouched.  Third conjunct: the summary
aggregation, by contrast, ignores any transaction whose status is not
completed. -/
theorem c10_balance_delta_ignores_status :
    (∀ (userId : Nat) (dto : CreateTransactionDto) (st1 st2 : TxStatus) (s : DbState),
      resultAccounts (TransactionsService.create userId { dto with status := st1 } s) =
        resultAccounts (TransactionsService.create userId { dto with status := st2 } s)) ∧
    (∀ (id userId : Nat) (st : TxStatus) (s : DbState),
      resultAccounts (TransactionsService.remove id userId (setTxStatus id st s)) =
        resultAccounts (TransactionsService.remove id userId s)) ∧
    (∀ (userId : Nat) (m : Int) (t : Transaction) (ts : List Transaction),
      t.status ≠ .completed →
        monthTypeTotal userId .income m (t :: ts) = monthTypeTotal userId .income m ts ∧
        monthTypeTotal userId .expense m (t :: ts) = monthTypeTotal userId .expense m ts) := by
  refine ⟨?_, ?_, ?_⟩
  · intro userId dto st1 st2 s
    simp only [TransactionsService.create]
    cases hacc : s.accounts.find? (fun a => decide (a.id = dto.account ∧ a.userId = userId)) <;>
      cases hcat : dto.category.bind
          (fun cid => s.categories.find? (fun c => decide (c.id = cid))) <;>
        simp [hacc, hcat, resultAccounts, Except.toOption]
  · intro id userId st s
    simp only [TransactionsService.remove, TransactionsService.findOne, setTxStatus]
    rw [List.find?_map]
    have hp : ((fun t : Transaction => decide (t.id = id ∧ t.userId = userId)) ∘
        (fun t => if t.id = id then { t with status := st } else t)) =
        (fun t : Transaction => decide (t.id = id ∧ t.userId = userId)) := by
      funext t
      by_cases h : t.id = id <;> simp [h]
    rw [hp]
    cases hf : s.transactions.find? (fun t => decide (t.id = id ∧ t.userId = userId)) with
    | none => simp
    | some tr =>
      have htr := List.find?_some hf
      rw [decide_eq_true_eq] at htr
      simp [resultAccounts, htr.1, Except.toOption]
  · intro userId m t ts h
    constructor <;>
      simp [monthTypeTotal, completedOfTypeInMonth, List.filter_cons, h]

/-- C10 witness: a concrete instantiation of the first and third conjuncts,
with the pending status discharged by computation. -/
theorem c10_witness :
    resultAccounts (TransactionsService.create 1
        { demoCreateDto with status := .pending } demoState0) =
      resultAccounts (TransactionsService.create 1
        { demoCreateDto with status := .completed } demoState0) ∧
    monthTypeTotal 1 .income 600 [c10PendingTx] = monthTypeTotal 1 .income 600 [] := by
  have h := c10_balance_delta_ignores_status
  exact ⟨h.1 1 demoCreateDto .pending .completed demoState0,
    (h.2.2 1 600 c10PendingTx [] (by decide)).1⟩

/-- C8: deleting a transaction reverses its signed effect on the owning
account and hands back the pre-delete row; recreating an identical
transaction (same amount, type, account, status, category) then restores the
account balance to its value before the deletion. -/
theorem c08_delete_then_recreate_restores_balance
    (id userId : Nat) (s : DbState) (t : Transaction) (s1 : DbState)
    (hdel : TransactionsService.remove id userId s = .ok (t, s1))
    (t2 : Transaction) (s2 : DbState)
    (hrec : TransactionsService.create userId (recreateDto t) s1 = .ok (t2, s2)) :
    (t ∈ s.transactions ∧ t.id = id ∧ t.userId = userId) ∧
    lookupBalance t.accountId s1 =
      (lookupBalance t.accountId s).map (fun b => b - signedAmount t.type t.amount) ∧
    lookupBalance t.accountId s2 = lookupBalance t.accountId s := by
  unfold TransactionsService.remove at hdel
  cases hf : TransactionsService.findOne id userId s with
  | none => rw [hf] at hdel; exact absurd hdel (by simp)
  | some tr =>
    rw [hf] at hdel
    simp only [Except.ok.injEq, Prod.mk.injEq] at hdel
    obtain ⟨htt, hs1⟩ := hdel
    rw [htt] at hf hs1
    unfold TransactionsService.findOne at hf
    have hmem := List.mem_of_find?_eq_some hf
    have hpred := List.find?_some hf
    rw [decide_eq_true_eq] at hpred
    have hadj : (match t.type with
        | TxType.income => -t.amount
        | TxType.expense => t.amount) = - signedAmount t.type t.amount := by
      cases t.type <;> simp [signedAmount]
    have hs1acc : s1.accounts =
        incrementBalance s.accounts t.accountId (- signedAmount t.type t.amount) := by
      rw [← hs1, ← hadj]
    have hbal1 : lookupBalance t.accountId s1 =
        (lookupBalance t.accountId s).map (fun b => b - signedAmount t.type t.amount) := by
      simp only [lookupBalance, hs1acc, find?_incrementBalance_self, Option.map_map]
      cases s.accounts.find? (fun a => decide (a.id = t.accountId)) <;>
        simp [sub_eq_add_neg]
    refine ⟨⟨hmem, hpred.1, hpred.2⟩, hbal1, ?_⟩
    unfold TransactionsService.create at hrec
    simp only [recreateDto] at hrec
    cases hacc2 : s1.accounts.find?
        (fun a => decide (a.id = t.accountId ∧ a.userId = userId)) with
    | none => rw [hacc2] at hrec; exact absurd hrec (by simp)
    | some acc2 =>
      rw [hacc2] at hrec
      cases hcat2 : t.categoryId.bind
          (fun cid => s1.categories.find? (fun c => decide (c.id = cid))) with
      | none => rw [hcat2] at hrec; exact absurd hrec (by simp)
      | some cat2 =>
        rw [hcat2] at hrec
        simp only [Except.ok.injEq, Prod.mk.injEq] at hrec
        obtain ⟨-, hs2⟩ := hrec
        have hs2acc : s2.accounts =
            incrementBalance s1.accounts t.accountId (signedAmount t.type t.amount) := by
          rw [← hs2]
        simp only [lookupBalance, hs2acc, hs1acc, find?_incrementBalance_self,
          Option.map_map]
        cases s.accounts.find? (fun a => decide (a.id = t.accountId)) <;>
          simp

/-- C8 witness: the round trip on the concrete 5000 income transaction. -/
theorem c08_witness :
    (c8Tx ∈ c8State0.transactions ∧ c8Tx.id = 100 ∧ c8Tx.userId = 1) ∧
    lookupBalance c8Tx.accountId c8State1 =
      (lookupBalance c8Tx.accountId c8State0).map
        (fun b => b - signedAmount c8Tx.type c8Tx.amount) ∧
    lookupBalance c8Tx.accountId c8State2 = lookupBalance c8Tx.accountId c8State0 :=
  c08_delete_then_recreate_restores_balance 100 1 c8State0 c8Tx c8State1 (by rfl)
    c8Tx2 c8State2 (by rfl)

/-- Helper: the ceiling-division formula (a + l - 1) / l is the least k with
a ≤ k * l, which is the defining property of ceil(a / l). -/
theorem ceilDiv_le_iff (a l k : Nat) (hl : 1 ≤ l) :
    (a + l - 1) / l ≤ k ↔ a ≤ k * l := by
  rw [Nat.div_le_iff_le_mul_add_pred hl, Nat.mul_comm l k]
  omega

/-- C9: every pagination the schema accepts has a 1-based page and a limit of
at most 100; the response metadata reports the exact count of matching rows,
echoes the page, and its pages member is the ceiling of total over limit (the
Galois characterization: pages is at most k exactly when total fits in k
pages of size limit); page 1 starts at the first row (offset zero), and no
page ever carries more than 100 rows. -/
theorem c09_pagination_bounds_and_meta
    (pageOpt limitOpt : Option Int) (pag : PaginationQueryParams)
    (hv : validatePagination pageOpt limitOpt = .ok pag) :
    1 ≤ pag.page ∧ 1 ≤ pag.limit ∧ pag.limit ≤ 100 ∧
    ∀ (userId : Nat) (filter : TransactionFilter) (s : DbState),
      (TransactionsService.findAll userId filter pag s).pagination.total =
        (s.transactions.filter (txMatchesFilter userId filter)).length ∧
      (TransactionsService.findAll userId filter pag s).pagination.currentPage = pag.page ∧
      (∀ k, (TransactionsService.findAll userId filter pag s).pagination.pages ≤ k ↔
        (TransactionsService.findAll userId filter pag s).pagination.total ≤
          k * pag.limit.toNat) ∧
      (TransactionsService.findAll userId filter { pag with page := 1 } s).transactions =
        (List.insertionSort (rowOrder filter.sort filter.order)
          (s.transactions.filter (txMatchesFilter userId filter))).take pag.limit.toNat ∧
      (TransactionsService.findAll userId filter pag s).transactions.length ≤ 100 := by
  simp only [validatePagination] at hv
  by_cases hp : pageOpt.getD 1 < 1
  · rw [if_pos hp] at hv; exact absurd hv (by simp)
  · rw [if_neg hp] at hv
    by_cases hl1 : limitOpt.getD 10 < 1
    · rw [if_pos hl1] at hv; exact absurd hv (by simp)
    · rw [if_neg hl1] at hv
      by_cases hl2 : 100 < limitOpt.getD 10
      · rw [if_pos hl2] at hv; exact absurd hv (by simp)
      · rw [if_neg hl2] at hv
        simp only [Except.ok.injEq] at hv
        subst hv
        have hlnat : 1 ≤ (limitOpt.getD 10).toNat := by omega
        have h100 : (limitOpt.getD 10).toNat ≤ 100 := by omega
        refine ⟨?_, ?_, ?_, ?_⟩
        · show (1 : Int) ≤ pageOpt.getD 1
          omega
        · show (1 : Int) ≤ limitOpt.getD 10
          omega
        · show limitOpt.getD 10 ≤ 100
          omega
        intro userId filter s
        refine ⟨rfl, rfl, ?_, ?_, ?_⟩
        · intro k
          exact ceilDiv_le_iff
            ((s.transactions.filter (txMatchesFilter userId filter)).length)
            ((limitOpt.getD 10).toNat) k hlnat
        · simp only [TransactionsService.findAll, TransactionRepository.findAll]
          norm_num
        · simp only [TransactionsService.findAll, TransactionRepository.findAll,
            List.length_take]
          exact le_trans inf_le_left h100

/-- C9 witness: a concrete accepted pagination, page 1 limit 10, with the
total over a one-row store. -/
theorem c09_witness :
    1 ≤ c9Pag.page ∧
    (TransactionsService.findAll 1 c4FilterYearOnly c9Pag c8State0).pagination.total =
      (c8State0.transactions.filter (txMatchesFilter 1 c4FilterYearOnly)).length := by
  have h := c09_pagination_bounds_and_meta (some 1) (some 10) c9Pag (by rfl)
  exact ⟨h.1, (h.2.2.2 1 c4FilterYearOnly c8State0).1⟩

/-- Helper: a string the bare-month regex accepts is not empty. -/
theorem isMonthNumeric_ne_empty {s : String} (h : isMonthNumeric s = true) :
    ¬ s = "" := by
  intro he
  rw [he] at h
  exact absurd h (by decide)

/-- Helper: a string the year regex accepts is not empty. -/
theorem isYearYYYY_ne_empty {s : String} (h : isYearYYYY s = true) :
    ¬ s = "" := by
  intro he
  rw [he] at h
  exact absurd h (by decide)

/-- C4 counterexample: a year supplied without any month is not rejected -
the schema validates the query successfully, silently dropping the year -
and the repository then reads and returns transaction rows (here the one
stored row), contradicting the claim that such a filter fails validation
without touching the store. -/
theorem c04_counterexample_year_without_month_reads_rows :
    validateTransactionFilter c4RawYearOnly = .ok c4FilterYearOnly ∧
    (TransactionRepository.findAll 1 c4FilterYearOnly c9Pag c8State0).1 = [c8Tx] ∧
    (TransactionRepository.findAll 1 c4FilterYearOnly c9Pag c8State0).2 = 1 := by
  refine ⟨rfl, rfl, rfl⟩

/-- C4 as amended: only a bare numeric month (01-12) without a year is
rejected as a validation error; a year without a month passes validation -
the transform drops the year - and the resulting filter carries no date
restriction at all, so the repository reads every row of the user. -/
theorem c04_amended_month_year_validation :
    (∀ (raw : RawTransactionFilter) (m : String), raw.month = some m →
      isMonthNumeric m = true → raw.year = none →
      validateTransactionFilter raw = .error .badRequest) ∧
    (∀ y : String, isYearYYYY y = true →
      validateTransactionFilter { c4RawYearOnly with year := some y } =
        .ok c4FilterYearOnly ∧
      dateRange c4FilterYearOnly = none ∧
      ∀ (userId : Nat) (pag : PaginationQueryParams) (s : DbState),
        (TransactionRepository.findAll userId c4FilterYearOnly pag s).2 =
          (s.transactions.filter (fun t => decide (t.userId = userId))).length) := by
  constructor
  · intro raw m hm hnum hy
    have hmne : ¬ m = "" := isMonthNumeric_ne_empty hnum
    simp [validateTransactionFilter, hm, hy, hnum, hmne, emptyToNone]
  · intro y hy
    have hyne : ¬ y = "" := isYearYYYY_ne_empty hy
    refine ⟨?_, rfl, ?_⟩
    · simp [validateTransactionFilter, c4RawYearOnly, c4FilterYearOnly, hy, hyne,
        emptyToNone]
    · intro userId pag s
      have hmf : txMatchesFilter userId c4FilterYearOnly =
          fun t => decide (t.userId = userId) := by
        funext t
        simp [txMatchesFilter, c4FilterYearOnly, dateRange]
      simp [TransactionRepository.findAll, hmf]

/-- C4 witness: the bare month 05 without a year is rejected, the year 2024
without a month is accepted. -/
theorem c04_witness :
    validateTransactionFilter c4RawMonthOnly = .error .badRequest ∧
    validateTransactionFilter c4RawYearOnly = .ok c4FilterYearOnly := by
  have h := c04_amended_month_year_validation
  exact ⟨h.1 c4RawMonthOnly "05" rfl (by decide) rfl,
    (h.2 "2024" (by decide)).1⟩

/-- Helper: restricting a list to a predicate the search predicate already
implies does not change what find? returns. -/
theorem find?_filter_of_imp {α : Type} (l : List α) (p q : α → Bool)
    (h : ∀ a, q a = true → p a = true) :
    (l.filter p).find? q = l.find? q := by
  induction l with
  | nil => rfl
  | cons a l ih =>
    cases hq : q a
    · cases hp : p a <;> simp [List.filter_cons, hp, List.find?_cons, hq, ih]
    · have hp := h a hq
      simp [List.filter_cons, hp, List.find?_cons, hq]

/-- C5: getByCategory is a permutation of one chart entry per distinct
category key among the matching rows (the keys are deduplicated, and a key is
present exactly when some completed transaction of the user, type and month
carries it); each entry sums the amounts of its group; names and colors
resolve through the category table, with Uncategorized and the neutral color
as defaults for the null key or a dangling reference; and the result is
sorted descending by summed value. -/
theorem c05_getByCategory_spec (userId : Nat) (ty : TxType) (m : Int) (s : DbState) :
    (getByCategory userId ty m s).Perm
      ((byCategoryKeys userId ty m s).map (byCategoryItem userId ty m s)) ∧
    (byCategoryKeys userId ty m s).Nodup ∧
    (∀ k : Option Nat, k ∈ byCategoryKeys userId ty m s ↔
      ∃ t, t ∈ s.transactions ∧ completedOfTypeInMonth userId ty m t = true ∧
        t.categoryId = k) ∧
    (∀ k : Option Nat, (byCategoryItem userId ty m s k).value =
      (((byCategoryMatching userId ty m s).filter
        (fun t => decide (t.categoryId = k))).map (fun t => t.amount)).sum) ∧
    (∀ cid : Nat, some cid ∈ byCategoryKeys userId ty m s →
      (∀ c, s.categories.find? (fun c2 => decide (c2.id = cid)) = some c →
        (byCategoryItem userId ty m s (some cid)).name = c.name ∧
        (byCategoryItem userId ty m s (some cid)).color = c.color) ∧
      (s.categories.find? (fun c2 => decide (c2.id = cid)) = none →
        (byCategoryItem userId ty m s (some cid)).name = "Uncategorized" ∧
        (byCategoryItem userId ty m s (some cid)).color = "#6c757d")) ∧
    ((byCategoryItem userId ty m s none).name = "Uncategorized" ∧
     (byCategoryItem userId ty m s none).color = "#6c757d") ∧
    List.Sorted chartOrder (getByCategory userId ty m s) := by
  refine ⟨List.perm_insertionSort chartOrder _, List.nodup_dedup _, ?_, ?_, ?_, ?_, ?_⟩
  · intro k
    simp only [byCategoryKeys, byCategoryMatching, List.mem_dedup, List.mem_map,
      List.mem_filter]
    constructor
    · rintro ⟨t, ⟨ht, hc⟩, hk⟩
      exact ⟨t, ht, hc, hk⟩
    · rintro ⟨t, ht, hc, hk⟩
      exact ⟨t, ⟨ht, hc⟩, hk⟩
  · intro k
    rfl
  · intro cid hmem
    have hpred : (fun c : Category => decide (some c.id = some cid)) =
        (fun c : Category => decide (c.id = cid)) := by
      funext c
      simp
    have hcid : cid ∈ (byCategoryKeys userId ty m s).filterMap id := by
      simp only [List.mem_filterMap, id]
      exact ⟨some cid, hmem, rfl⟩
    have himp : ∀ c : Category, decide (c.id = cid) = true →
        ((byCategoryKeys userId ty m s).filterMap id).contains c.id = true := by
      intro c hc
      rw [decide_eq_true_eq] at hc
      rw [hc]
      simp [hcid]
    have heq : (s.categories.filter
          (fun c => ((byCategoryKeys userId ty m s).filterMap id).contains c.id)).find?
          (fun c => decide (some c.id = some cid)) =
        s.categories.find? (fun c2 => decide (c2.id = cid)) := by
      rw [hpred, find?_filter_of_imp _ _ _ himp]
    constructor
    · intro c hc
      simp only [byCategoryItem]
      rw [heq, hc]
      exact ⟨rfl, rfl⟩
    · intro hc
      simp only [byCategoryItem]
      rw [heq, hc]
      exact ⟨rfl, rfl⟩
  · have hnone : (s.categories.filter
          (fun c => ((byCategoryKeys userId ty m s).filterMap id).contains c.id)).find?
          (fun c => decide (some c.id = (none : Option Nat))) = none := by
      rw [List.find?_eq_none]
      intro c hc
      simp
    constructor
    · simp only [byCategoryItem]
      rw [hnone]
      rfl
    · simp only [byCategoryItem]
      rw [hnone]
      rfl
  · exact @List.sorted_insertionSort ChartItem chartOrder _
      ⟨fun a b => by
        simp only [chartOrder, chartDescByValue, decide_eq_true_eq]
        exact le_total b.value a.value⟩
      ⟨fun a b c hab hbc => by
        simp only [chartOrder, chartDescByValue, decide_eq_true_eq] at hab hbc ⊢
        exact le_trans hbc hab⟩
      _

/-- C5 witness: two completed expenses in month 5, one in category 10 and one
uncategorized, exercise nodup, name resolution (both found and default) and
sortedness. -/
theorem c05_witness :
    (byCategoryKeys 1 TxType.expense 5 c5State).Nodup ∧
    (byCategoryItem 1 TxType.expense 5 c5State none).name = "Uncategorized" ∧
    (byCategoryItem 1 TxType.expense 5 c5State (some 10)).name = "Salario" ∧
    List.Sorted chartOrder (getByCategory 1 TxType.expense 5 c5State) := by
  have h := c05_getByCategory_spec 1 TxType.expense 5 c5State
  refine ⟨h.2.1, h.2.2.2.2.2.1.1, ?_, h.2.2.2.2.2.2⟩
  exact ((h.2.2.2.2.1 10 (by decide)).1 demoCategory (by decide)).1

/-- C6 counterexample: asking for a window of 3 months still yields 6
entries - the window argument is accepted but never read, the month loop
being hardcoded to six iterations. -/
theorem c06_counterexample_window_argument_ignored :
    (getMonthlyData 1 600 (some 3) demoState0).length = 6 ∧
    ¬ (getMonthlyData 1 600 (some 3) demoState0).length = 3 := by
  decide

/-- C6 as amended: for every window argument, getMonthlyData returns exactly
one entry per month of the trailing 6 months ending at the given month
inclusive, each entry carrying the completed income and expense totals of its
month and balance = income - expense, in ascending chronological order even
though the months are generated newest first and reversed at the end. -/
theorem c06_amended_monthly_window (userId : Nat) (endMonth : Int)
    (windowSize : Option Nat) (s : DbState) :
    getMonthlyData userId endMonth windowSize s =
      [monthEntry userId (endMonth - 5) s, monthEntry userId (endMonth - 4) s,
       monthEntry userId (endMonth - 3) s, monthEntry userId (endMonth - 2) s,
       monthEntry userId (endMonth - 1) s, monthEntry userId endMonth s] ∧
    (getMonthlyData userId endMonth windowSize s).map (fun e => e.month) =
      [endMonth - 5, endMonth - 4, endMonth - 3, endMonth - 2, endMonth - 1, endMonth] ∧
    List.Sorted (fun a b : MonthlyDataItem => a.month < b.month)
      (getMonthlyData userId endMonth windowSize s) ∧
    ∀ e ∈ getMonthlyData userId endMonth windowSize s,
      e.balance = e.income - e.expense ∧
      e.income = monthTypeTotal userId .income e.month s.transactions ∧
      e.expense = monthTypeTotal userId .expense e.month s.transactions := by
  have h1 : getMonthlyData userId endMonth windowSize s =
      [monthEntry userId (endMonth - 5) s, monthEntry userId (endMonth - 4) s,
       monthEntry userId (endMonth - 3) s, monthEntry userId (endMonth - 2) s,
       monthEntry userId (endMonth - 1) s, monthEntry userId endMonth s] := by
    show [monthEntry userId (endMonth - ((5 : Nat) : Int)) s,
          monthEntry userId (endMonth - ((4 : Nat) : Int)) s,
          monthEntry userId (endMonth - ((3 : Nat) : Int)) s,
          monthEntry userId (endMonth - ((2 : Nat) : Int)) s,
          monthEntry userId (endMonth - ((1 : Nat) : Int)) s,
          monthEntry userId (endMonth - ((0 : Nat) : Int)) s] = _
    norm_num
  refine ⟨h1, ?_, ?_, ?_⟩
  · rw [h1]
    simp [monthEntry]
  · rw [h1]
    simp [List.pairwise_cons, monthEntry]
  · rw [h1]
    intro e he
    simp only [List.mem_cons, List.not_mem_nil, or_false] at he
    rcases he with rfl | rfl | rfl | rfl | rfl | rfl <;> exact ⟨rfl, rfl, rfl⟩

/-- C6 witness: the six trailing month indexes ending at month 600, in
ascending order. -/
theorem c06_witness :
    (getMonthlyData 1 600 none demoState0).map (fun e => e.month) =
      [595, 596, 597, 598, 599, 600] := by
  have h := (c06_amended_monthly_window 1 600 none demoState0).2.1
  norm_num at h
  exact h
